import Mathlib

/-!
Verification development for the capi-config commands `capa` and `capk`
(`pkg/cmds/config/capa.go`, `pkg/cmds/config/capk.go`).

The commands read a multi-document YAML stream, patch nested fields of
documents of particular kinds, validate the batch, and re-emit the stream.
We embed the document model as a tree of generically typed values (the
Go `map[string]interface\x7b\x7d` representation used by
`unstructured.Unstructured`), the nested-field editor
(`unstructured.SetNestedField` / `SetNestedMap` from k8s apimachinery),
the per-document routing bodies of both commands, the batch validator,
and the output-buffer assembly, and prove the spec's claims about them.
-/

/-- A generically typed document value: the shallow embedding of Go
`interface\x7b\x7d` values produced by YAML decoding (strings, integers,
nested string-keyed maps, sequences, null). -/
inductive Value where
  | null : Value
  | str (s : String) : Value
  | int (n : Int) : Value
  | map (kvs : List (String × Value)) : Value
  | seq (vs : List Value) : Value

/-- A document's top-level content: a string-keyed map, as produced by the
parser for every Kubernetes-style object. -/
abbrev Doc := List (String × Value)

/-- Lookup of a key in a map value (Go `m[field]` with the comma-ok idiom). -/
def mapGet : Doc → String → Option Value
  | [], _ => none
  | (k, v) :: rest, key => if k == key then some v else mapGet rest key

/-- Assignment of a key in a map value (Go `m[field] = value`): replaces the
binding wholly if the key is present, appends it otherwise. -/
def mapSet : Doc → String → Value → Doc
  | [], key, v => [(key, v)]
  | (k, w) :: rest, key, v =>
      if k == key then (key, v) :: rest else (k, w) :: mapSet rest key v

/-- Rendering of a field path for editor error messages
(apimachinery `jsonPath`). -/
def jsonPath (fields : List String) : String :=
  "." ++ String.intercalate "." fields

/-- Recursive worker of the nested-field editor, carrying the already
traversed path prefix for error reporting. Mirrors the loop of
apimachinery `SetNestedField`: each intermediate segment must hold a map
(created when absent), and the final segment is overwritten. The empty-path
case is unreachable from the commands, which always pass at least two
segments. -/
def setNestedRec : Doc → List String → List String → Value → Except String Doc
  | m, _, [], _ => Except.ok m
  | m, _, [k], v => Except.ok (mapSet m k v)
  | m, pref, k :: rest, v =>
      match mapGet m k with
      | some (Value.map inner) =>
          match setNestedRec inner (pref ++ [k]) rest v with
          | Except.error e => Except.error e
          | Except.ok inner1 => Except.ok (mapSet m k (Value.map inner1))
      | some _ =>
          Except.error ("value cannot be set because " ++ jsonPath (pref ++ [k])
            ++ " is not a map[string]interface\x7b\x7d")
      | none =>
          match setNestedRec [] (pref ++ [k]) rest v with
          | Except.error e => Except.error e
          | Except.ok inner1 => Except.ok (mapSet m k (Value.map inner1))

/-- Embedding of `unstructured.SetNestedField(obj, value, fields...)`. -/
def SetNestedField (m : Doc) (v : Value) (fields : List String) : Except String Doc :=
  setNestedRec m [] fields v

/-- Embedding of `unstructured.SetNestedMap(obj, value, fields...)` (the deep
copy the Go version takes is the identity in a functional embedding). -/
def SetNestedMap (m : Doc) (value : Doc) (fields : List String) : Except String Doc :=
  SetNestedField m (Value.map value) fields

/-- Kind constant from capa.go. -/
def awsManagedControlPlane : String := "AWSManagedControlPlane"

/-- Kind constant from capa.go. -/
def awsManagedMachinePool : String := "AWSManagedMachinePool"

/-- Kind constant from capa.go. -/
def machinePool : String := "MachinePool"

/-- Kind constant from capa.go. -/
def cluster : String := "Cluster"

/-- Annotation key constant from capa.go. -/
def controlplaneRoleAnnotation : String := "eks.amazonaws.com/controlplane-role"

/-- Embedding of `ri.Object.GetKind()`: the `kind` field of the content when
it is a string, the empty string otherwise. -/
def getKind (d : Doc) : String :=
  match mapGet d "kind" with
  | some (Value.str s) => s
  | _ => ""

/-- capa.go `managedCPCIDR`: replace `spec.network` with a fresh
vpc/cidrBlock mapping. -/
def managedCPCIDR (d : Doc) (vpcCidr : String) : Except String Doc :=
  SetNestedMap d [("vpc", Value.map [("cidrBlock", Value.str vpcCidr)])] ["spec", "network"]

/-- capa.go `managedCPRole`: set `spec.roleName`. -/
def managedCPRole (d : Doc) (roleName : String) : Except String Doc :=
  SetNestedField d (Value.str roleName) ["spec", "roleName"]

/-- capa.go `managedMPScaling`: replace `spec.scaling` with a fresh
minSize/maxSize mapping. -/
def managedMPScaling (d : Doc) (minNodeCount maxNodeCount : Int) : Except String Doc :=
  SetNestedMap d [("minSize", Value.int minNodeCount), ("maxSize", Value.int maxNodeCount)]
    ["spec", "scaling"]

/-- capa.go `managedMPRole`: set `spec.roleName`. -/
def managedMPRole (d : Doc) (roleName : String) : Except String Doc :=
  SetNestedField d (Value.str roleName) ["spec", "roleName"]

/-- capa.go `clusterAnnotations`: set the controlplane-role annotation under
`metadata.annotations`. -/
def clusterAnnotations (d : Doc) (managedControlplaneRole : String) : Except String Doc :=
  SetNestedField d (Value.str managedControlplaneRole)
    ["metadata", "annotations", controlplaneRoleAnnotation]

/-- Modelled from the spec: `SetMPConfiguration` is repository code that is
called from capa.go for every `MachinePool` document but is not defined in
the sources at hand. Per the spec's scenario ("`MachinePool` document gains
a scaling sub-structure \x7bmin: 2, max: 5\x7d"), it gives the document a
scaling sub-structure with the two bounds. -/
def SetMPConfiguration (d : Doc) (minNodeCount maxNodeCount : Int) : Except String Doc :=
  SetNestedMap d [("min", Value.int minNodeCount), ("max", Value.int maxNodeCount)]
    ["spec", "scaling"]

/-- The capa command's flag set (`MutationRequest`). -/
structure CAPAFlags where
  vpcCidr : String
  managedControlplaneRole : String
  managedMachinepoolRole : String
  minNodeCount : Int
  maxNodeCount : Int
deriving Repr, DecidableEq

/-- The flag defaults registered in `NewCmdCAPA` (empty strings, bound pair 1/6). -/
def capaDefaults : CAPAFlags :=
  { vpcCidr := ""
    managedControlplaneRole := ""
    managedMachinepoolRole := ""
    minNodeCount := 1
    maxNodeCount := 6 }

/-- The argument of the batch validator, mirroring capa.go `validationHelper`;
the Go `map[string]bool` is embedded as the list of kinds mapped to true. -/
structure validationHelper where
  isFound : List String
  managedControlplaneRole : String
  managedMachinepoolRole : String
  vpcCidr : String
  minCount : Int
  maxCount : Int
deriving Repr, DecidableEq

/-- Membership in the discovered-kind set (Go `helper.isFound[k]`). -/
def foundIn (found : List String) (k : String) : Bool :=
  found.contains k

/-- Recording a discovered kind (Go `isFound[k] = true`). -/
def markFound (found : List String) (k : String) : List String :=
  if found.contains k then found else found ++ [k]

/-- capa.go `validation`, with the nested conditionals flattened into an
equivalent chain (the Go body returns on the first violated check). -/
def validation (helper : validationHelper) : Except String Unit :=
  if !(foundIn helper.isFound awsManagedControlPlane) && helper.vpcCidr != "" then
    Except.error "failed to get AWSManagedControlPlane for cidr update"
  else if !(foundIn helper.isFound awsManagedControlPlane)
      && helper.managedControlplaneRole != "" then
    Except.error "failed to get AWSManagedControlPlane for role configuration"
  else if helper.minCount > helper.maxCount then
    Except.error "max node count can\x27t be less than min node count"
  else if helper.managedMachinepoolRole != ""
      && !(foundIn helper.isFound awsManagedMachinePool) then
    Except.error "failed to get AWSManagedMachinePool for role configuration"
  else if !(foundIn helper.isFound cluster) && helper.managedControlplaneRole != "" then
    Except.error "failed to get ControlPlane to update annotations"
  else Except.ok ()

/-- The AWSManagedControlPlane block of the capa routing body: the two
conditional edits, in declaration order, fail-fast. -/
def stepACP (f : CAPAFlags) (d : Doc) : Except String Doc :=
  match (if f.vpcCidr != "" then managedCPCIDR d f.vpcCidr else Except.ok d) with
  | Except.error e => Except.error e
  | Except.ok d1 =>
      if f.managedControlplaneRole != "" then managedCPRole d1 f.managedControlplaneRole
      else Except.ok d1

/-- The AWSManagedMachinePool block of the capa routing body: the
unconditional scaling edit, then the conditional role edit. -/
def stepAMP (f : CAPAFlags) (d : Doc) : Except String Doc :=
  match managedMPScaling d f.minNodeCount f.maxNodeCount with
  | Except.error e => Except.error e
  | Except.ok d1 =>
      if f.managedMachinepoolRole != "" then managedMPRole d1 f.managedMachinepoolRole
      else Except.ok d1

/-- The per-document body of capa's `parser.ProcessResources` callback up to
re-encoding: the four sequential kind blocks, each recording discovery before
its edits, threading the mutated document and the discovery state. On an edit
failure the discovery marks made so far are kept, as the Go code mutates
`isFound` in place before attempting the edits. -/
def processOne (f : CAPAFlags) (d : Doc) (found : List String) :
    Except String Doc × List String :=
  let found := if getKind d == awsManagedControlPlane
    then markFound found awsManagedControlPlane else found
  match (if getKind d == awsManagedControlPlane then stepACP f d else Except.ok d) with
  | Except.error e => (Except.error e, found)
  | Except.ok d =>
    let found := if getKind d == machinePool then markFound found machinePool else found
    match (if getKind d == machinePool
        then SetMPConfiguration d f.minNodeCount f.maxNodeCount else Except.ok d) with
    | Except.error e => (Except.error e, found)
    | Except.ok d =>
      let found := if getKind d == awsManagedMachinePool
        then markFound found awsManagedMachinePool else found
      match (if getKind d == awsManagedMachinePool then stepAMP f d else Except.ok d) with
      | Except.error e => (Except.error e, found)
      | Except.ok d =>
        let found := if getKind d == cluster then markFound found cluster else found
        match (if getKind d == cluster
            then clusterAnnotations d f.managedControlplaneRole else Except.ok d) with
        | Except.error e => (Except.error e, found)
        | Except.ok d => (Except.ok d, found)

mutual

/-- Deterministic re-encoding of a document value, standing in for
`yaml.Marshal` in the Stream Reassembler; the exact textual format is
irrelevant to the pipeline, only that it is a function of the value and
never empty. -/
def encodeVal : Value → String
  | Value.null => "null"
  | Value.str s => "s:" ++ s
  | Value.int n => "i:" ++ toString n
  | Value.map kvs => "(" ++ encodeFields kvs ++ ")"
  | Value.seq vs => "[" ++ encodeElems vs ++ "]"

/-- Encoding of the bindings of a map value. -/
def encodeFields : List (String × Value) → String
  | [] => ""
  | [(k, v)] => k ++ "=" ++ encodeVal v
  | (k, v) :: rest => k ++ "=" ++ encodeVal v ++ "," ++ encodeFields rest

/-- Encoding of the elements of a sequence value. -/
def encodeElems : List Value → String
  | [] => ""
  | [v] => encodeVal v
  | v :: rest => encodeVal v ++ "," ++ encodeElems rest

end

/-- Re-encoding of one document (`yaml.Marshal(ri.Object)`). -/
def encodeDoc (d : Doc) : String :=
  "(" ++ encodeFields d ++ ")"

/-- Appending one re-encoded document to the output buffer: capa.go and
capk.go write the `---` separator line first whenever the buffer is already
nonempty. -/
def appendOut (out piece : String) : String :=
  (if out.length > 0 then out ++ "---\n" else out) ++ piece

/-- The capa `parser.ProcessResources` loop: routes each document in order,
appends its re-encoding to the output buffer, threads the discovery state,
and stops at the first failure. Returns the outcome together with the
discovery state reached, which the Go code keeps in the enclosing
`isFound` map even when the callback fails. -/
def processResources (f : CAPAFlags) :
    List Doc → String → List String → Except String String × List String
  | [], out, found => (Except.ok out, found)
  | d :: rest, out, found =>
      match processOne f d found with
      | (Except.error e, found1) => (Except.error e, found1)
      | (Except.ok d1, found1) =>
          processResources f rest (appendOut out (encodeDoc d1)) found1

/-- capa.go `validationHelper` literal built in `NewCmdCAPA` from the flags
and the discovery state. -/
def mkHelper (f : CAPAFlags) (found : List String) : validationHelper :=
  { isFound := found
    managedControlplaneRole := f.managedControlplaneRole
    managedMachinepoolRole := f.managedMachinepoolRole
    vpcCidr := f.vpcCidr
    minCount := f.minNodeCount
    maxCount := f.maxNodeCount }

/-- The capa `RunE` body over an already parsed document stream: process all
resources, validate the batch, and only then write the buffered output to
standard output (the returned list of stdout writes). `found0` is the state
of the `isFound` map at the start of the run; the Go code creates that map
outside `RunE`, in `NewCmdCAPA`, so a run of a fresh command starts from the
empty state and any later run of the same command instance starts from the
state the previous run left behind. The final component is the state of
`isFound` after the run. -/
def runCAPA (f : CAPAFlags) (found0 : List String) (docs : List Doc) :
    (Except String Unit × List String) × List String :=
  match processResources f docs "" found0 with
  | (Except.error e, found1) => ((Except.error e, []), found1)
  | (Except.ok out, found1) =>
      match validation (mkHelper f found1) with
      | Except.error e => ((Except.error e, []), found1)
      | Except.ok _ => ((Except.ok (), [out]), found1)

/-- capk.go `setBootstrapCheckStrategy`: force the bootstrap check strategy
field to the sentinel value `none`. -/
def setBootstrapCheckStrategy (d : Doc) : Except String Doc :=
  SetNestedField d (Value.str "none")
    ["spec", "template", "spec", "virtualMachineBootstrapCheck", "checkStrategy"]

/-- The per-document body of capk's `parser.ProcessResources` callback up to
re-encoding: the single unconditional edit on `KubevirtMachineTemplate`
documents. -/
def processOneCAPK (d : Doc) : Except String Doc :=
  if getKind d == "KubevirtMachineTemplate" then setBootstrapCheckStrategy d
  else Except.ok d

/-- The capk `parser.ProcessResources` loop (no discovery state: capk tracks
none). -/
def processResourcesCAPK : List Doc → String → Except String String
  | [], out => Except.ok out
  | d :: rest, out =>
      match processOneCAPK d with
      | Except.error e => Except.error e
      | Except.ok d1 => processResourcesCAPK rest (appendOut out (encodeDoc d1))

/-- The capk `RunE` body over an already parsed document stream: process all
resources and, with no batch-validation stage, write the buffered output. -/
def runCAPK (docs : List Doc) : Except String Unit × List String :=
  match processResourcesCAPK docs "" with
  | Except.error e => (Except.error e, [])
  | Except.ok out => (Except.ok (), [out])

/-- Specification-side routing of a capa document stream: the per-document
results in input order, with the discovery state threaded; used to state
order preservation. -/
def routeList (f : CAPAFlags) : List Doc → List String → Except String (List Doc) × List String
  | [], found => (Except.ok [], found)
  | d :: rest, found =>
      match processOne f d found with
      | (Except.error e, found1) => (Except.error e, found1)
      | (Except.ok d1, found1) =>
          match routeList f rest found1 with
          | (Except.error e, found2) => (Except.error e, found2)
          | (Except.ok ds, found2) => (Except.ok (d1 :: ds), found2)

/-- The routed capa documents of a run, in input order (empty on a failed
run). -/
def routedDocs (f : CAPAFlags) (docs : List Doc) (found0 : List String) : List Doc :=
  match (routeList f docs found0).1 with
  | Except.ok ds => ds
  | Except.error _ => []

/-- Specification-side routing of a capk document stream. -/
def routeListCAPK : List Doc → Except String (List Doc)
  | [] => Except.ok []
  | d :: rest =>
      match processOneCAPK d with
      | Except.error e => Except.error e
      | Except.ok d1 =>
          match routeListCAPK rest with
          | Except.error e => Except.error e
          | Except.ok ds => Except.ok (d1 :: ds)

/-- The routed capk documents of a run, in input order (empty on a failed
run). -/
def routedDocsCAPK (docs : List Doc) : List Doc :=
  match routeListCAPK docs with
  | Except.ok ds => ds
  | Except.error _ => []

/-- Joining encoded documents with the stream separator, no separator before
the first document. -/
def joinSep : List String → String
  | [] => ""
  | [p] => p
  | p :: rest => p ++ "---\n" ++ joinSep rest

/-- The output buffer resulting from appending a list of pieces in order. -/
def buildOut (out : String) : List String → String
  | [] => out
  | p :: rest => buildOut (appendOut out p) rest

/-- Whether a run outcome is a failure. -/
def isErr {α : Type} : Except String α → Bool
  | Except.error _ => true
  | Except.ok _ => false

/-- Whether the character list `pat` occurs as a leading segment of `l`. -/
def leadsList : List Char → List Char → Bool
  | [], _ => true
  | _ :: _, [] => false
  | a :: as, b :: bs => a == b && leadsList as bs

/-- Whether the character list `pat` occurs contiguously inside `l`. -/
def occursIn (pat : List Char) : List Char → Bool
  | [] => leadsList pat []
  | c :: rest => leadsList pat (c :: rest) || occursIn pat rest

/-- Whether an error message names a kind (contains it as a substring). -/
def mentions (msg k : String) : Bool :=
  occursIn k.toList msg.toList

/-- Observation of a string value at a nested path of a document; used to
tell mutated documents from their originals. -/
def getNestedString (d : Doc) : List String → Option String
  | [] => none
  | [k] =>
      match mapGet d k with
      | some (Value.str s) => some s
      | _ => none
  | k :: rest =>
      match mapGet d k with
      | some (Value.map inner) => getNestedString inner rest
      | _ => none

/-- Observation of a nested map value at a path of a document (every listed
segment must hold a map). -/
def getNestedMap (d : Doc) : List String → Option Doc
  | [] => some d
  | k :: rest =>
      match mapGet d k with
      | some (Value.map inner) => getNestedMap inner rest
      | _ => none

/-- Whether a value is a traversable container for the nested-field editor
(only string-keyed maps are; apimachinery rejects everything else,
sequences included). -/
def isMapV : Value → Bool
  | Value.map _ => true
  | _ => false

/-- Whether a failed outcome's message names a kind. -/
def errMentions : Except String Unit → String → Bool
  | Except.error m, k => mentions m k
  | Except.ok _, _ => false

/-- A bare Cluster document. -/
def clusterDoc0 : Doc := [("kind", Value.str "Cluster")]

/-- A bare MachinePool document. -/
def mpDoc0 : Doc := [("kind", Value.str "MachinePool")]

/-- A bare AWSManagedControlPlane document. -/
def acpDoc0 : Doc := [("kind", Value.str "AWSManagedControlPlane")]

/-- A bare AWSManagedMachinePool document. -/
def ampDoc0 : Doc := [("kind", Value.str "AWSManagedMachinePool")]

/-- A bare KubevirtMachineTemplate document. -/
def kmtDoc0 : Doc := [("kind", Value.str "KubevirtMachineTemplate")]

/-- A KubevirtMachineTemplate document whose `spec` field holds a scalar, so
the bootstrap-check edit's path is not traversable. -/
def kmtBadDoc : Doc :=
  [("kind", Value.str "KubevirtMachineTemplate"), ("spec", Value.str "oops")]

/-- A Cluster document whose `metadata` field holds a scalar, so the
annotation edit's path is not traversable. -/
def clusterBadDoc : Doc :=
  [("kind", Value.str "Cluster"), ("metadata", Value.str "oops")]

/-- The bare Cluster document after the unconditional annotation edit of a
default-flag capa run. -/
def clusterDoc0Mut : Doc :=
  [("kind", Value.str "Cluster"),
   ("metadata", Value.map
     [("annotations", Value.map [( controlplaneRoleAnnotation, Value.str "")])])]

/-- The bare MachinePool document after the scaling edit with bounds 2 and 5. -/
def mpDoc0Scaled : Doc :=
  [("kind", Value.str "MachinePool"),
   ("spec", Value.map
     [("scaling", Value.map [("min", Value.int 2), ("max", Value.int 5)])])]

/-- Flags of the spec's two-document scenario: bounds 2 and 5, no roles. -/
def c2Flags : CAPAFlags := { capaDefaults with minNodeCount := 2, maxNodeCount := 5 }

/-- Flags with only the control-plane role intent set. -/
def cpRoleFlags : CAPAFlags := { capaDefaults with managedControlplaneRole := "r" }

/-- Flags with only the CIDR intent set. -/
def cidrFlags : CAPAFlags := { capaDefaults with vpcCidr := "10.0.0.0/16" }

/-- Flags with an inverted bound pair. -/
def sixOneFlags : CAPAFlags := { capaDefaults with minNodeCount := 6, maxNodeCount := 1 }

/-- A failed `validation` outcome stays failed after any earlier check: the
bound check errors whenever the two control-plane checks pass. -/
theorem validation_errs_of_min_gt_max (helper : validationHelper)
    (h : helper.minCount > helper.maxCount) : isErr (validation helper) = true := by
  unfold validation
  split_ifs <;> first | rfl | omega

/-- A capa run that fails produces no stdout writes. -/
theorem runCAPA_fail_no_writes (f : CAPAFlags) (found0 : List String) (docs : List Doc)
    (h : isErr ((runCAPA f found0 docs).1.1) = true) : (runCAPA f found0 docs).1.2 = [] := by
  unfold runCAPA at *
  rcases hp : processResources f docs "" found0 with ⟨res, found1⟩
  cases res with
  | error e => rfl
  | ok out =>
      rcases hv : validation (mkHelper f found1) with e | u <;> simp_all [isErr]

/-- A capk run that fails produces no stdout writes. -/
theorem runCAPK_fail_no_writes (docs : List Doc)
    (h : isErr ((runCAPK docs).1) = true) : (runCAPK docs).2 = [] := by
  unfold runCAPK at *
  rcases hp : processResourcesCAPK docs "" with e | out <;> simp_all [isErr]

/-- C4 — Bound ordering: whenever the lower bound exceeds the upper bound,
the batch validator rejects, whatever the discovered kinds; consequently no
capa run with such flags succeeds. -/
theorem bound_ordering_always_fails :
    (∀ helper : validationHelper, helper.minCount > helper.maxCount →
      isErr (validation helper) = true) ∧
    (∀ (f : CAPAFlags) (found0 : List String) (docs : List Doc),
      f.minNodeCount > f.maxNodeCount → isErr ((runCAPA f found0 docs).1.1) = true) := by
  constructor
  · exact validation_errs_of_min_gt_max
  · intro f found0 docs h
    unfold runCAPA
    rcases hp : processResources f docs "" found0 with ⟨res, found1⟩
    cases res with
    | error e => rfl
    | ok out =>
        have hv : isErr (validation (mkHelper f found1)) = true :=
          validation_errs_of_min_gt_max _ (by simpa [mkHelper] using h)
        rcases hvv : validation (mkHelper f found1) with e | u
        · simp [hvv, isErr]
        · rw [hvv] at hv
          exact absurd hv (by simp [isErr])

/-- C4 witness: the bound pair 6/1 is rejected both by the validator alone
and by a whole run over a MachinePool document. -/
theorem bound_ordering_always_fails_witness :
    isErr (validation (mkHelper sixOneFlags [])) = true ∧
    isErr ((runCAPA sixOneFlags [] [mpDoc0]).1.1) = true :=
  ⟨bound_ordering_always_fails.1 (mkHelper sixOneFlags []) (by decide),
   bound_ordering_always_fails.2 sixOneFlags [] [mpDoc0] (by decide)⟩

/-- C5 — All-or-nothing output: a run of either command that fails at any
stage writes nothing to standard output; bytes reach the output sink only
when the whole run, batch validation included, succeeded. -/
theorem all_or_nothing_output :
    (∀ (f : CAPAFlags) (found0 : List String) (docs : List Doc),
      isErr ((runCAPA f found0 docs).1.1) = true → (runCAPA f found0 docs).1.2 = []) ∧
    (∀ docs : List Doc, isErr ((runCAPK docs).1) = true → (runCAPK docs).2 = []) :=
  ⟨runCAPA_fail_no_writes, runCAPK_fail_no_writes⟩

/-- C5 witness: a capa run failing batch validation and a capk run failing
on a non-traversable path both write nothing. -/
theorem all_or_nothing_output_witness :
    (runCAPA cidrFlags [] ([] : List Doc)).1.2 = [] ∧ (runCAPK [kmtBadDoc]).2 = [] :=
  ⟨all_or_nothing_output.1 cidrFlags [] [] rfl, all_or_nothing_output.2 [kmtBadDoc] rfl⟩

/-- When every document of a capk stream routes successfully, the whole loop
succeeds. -/
theorem processResourcesCAPK_ok (docs : List Doc)
    (h : ∀ d ∈ docs, isErr (processOneCAPK d) = false) :
    ∀ out : String, ∃ o, processResourcesCAPK docs out = Except.ok o := by
  induction docs with
  | nil => exact fun out => ⟨out, rfl⟩
  | cons d rest ih =>
      intro out
      have hd : isErr (processOneCAPK d) = false := h d (List.mem_cons_self d rest)
      rcases hp : processOneCAPK d with e | d1
      · rw [hp] at hd
        exact absurd hd (by simp [isErr])
      · rcases ih (fun d hm => h d (List.mem_cons_of_mem _ hm)) (appendOut out (encodeDoc d1))
          with ⟨o, ho⟩
        exact ⟨o, by simp [processResourcesCAPK, hp, ho]⟩

/-- C10 — capk has no batch-validation stage: whenever parsing succeeded and
every per-document edit succeeds, the capk run succeeds and emits exactly one
stdout write, regardless of which kinds (if any) are present. -/
theorem capk_no_batch_validation (docs : List Doc)
    (h : ∀ d ∈ docs, isErr (processOneCAPK d) = false) :
    (runCAPK docs).1 = Except.ok () ∧ (runCAPK docs).2.length = 1 := by
  rcases processResourcesCAPK_ok docs h "" with ⟨o, ho⟩
  constructor <;> simp [runCAPK, ho]

/-- C10 witness: a capk run over a single Cluster document — a stream with
zero KubevirtMachineTemplate documents — succeeds and emits output. -/
theorem capk_no_batch_validation_witness :
    (runCAPK [clusterDoc0]).1 = Except.ok () ∧ (runCAPK [clusterDoc0]).2.length = 1 :=
  capk_no_batch_validation [clusterDoc0] (by
    intro d hd
    rw [List.mem_singleton] at hd
    subst hd
    rfl)

/-- C1 counterexample — running capa with every intent empty and the bounds
at their defaults over a stream holding one bare Cluster document succeeds,
yet the document's content is changed: the run unconditionally plants an
empty controlplane-role annotation. -/
theorem noop_stability_cx :
    (runCAPA capaDefaults [] [clusterDoc0]).1.1 = Except.ok () ∧
    routedDocs capaDefaults [clusterDoc0] [] = [clusterDoc0Mut] ∧
    clusterDoc0Mut ≠ clusterDoc0 := by
  refine ⟨rfl, rfl, fun hcontra => ?_⟩
  simp [clusterDoc0Mut, clusterDoc0] at hcontra

/-- C1 amended — No-op stability holds only for the kinds without
unconditional rules: with every intent empty and the bounds at their
defaults, a capa run leaves every document unchanged whose kind is none of
MachinePool, AWSManagedMachinePool and Cluster (AWSManagedControlPlane
documents included, their rules being conditional), and a capk run leaves
every document unchanged whose kind is not KubevirtMachineTemplate;
documents of the excepted kinds are mutated even with empty intents. -/
theorem noop_stability_amended :
    (∀ (d : Doc) (found : List String),
      getKind d ≠ machinePool → getKind d ≠ awsManagedMachinePool → getKind d ≠ cluster →
      processOne capaDefaults d found =
        (Except.ok d,
         if getKind d == awsManagedControlPlane then markFound found awsManagedControlPlane
         else found)) ∧
    (∀ d : Doc, getKind d ≠ "KubevirtMachineTemplate" → processOneCAPK d = Except.ok d) := by
  constructor
  · intro d found h1 h2 h3
    simp [processOne, stepACP, capaDefaults, h1, h2, h3]
  · intro d h
    simp [processOneCAPK, h]

/-- C1 witness: a default-flag capa run leaves a bare AWSManagedControlPlane
document unchanged and only records its kind, and a default capk run leaves
a bare Cluster document unchanged. -/
theorem noop_stability_amended_witness :
    processOne capaDefaults acpDoc0 [] = (Except.ok acpDoc0, [awsManagedControlPlane]) ∧
    processOneCAPK clusterDoc0 = Except.ok clusterDoc0 := by
  constructor
  · have h := noop_stability_amended.1 acpDoc0 [] (by decide) (by decide) (by decide)
    simpa using h
  · exact noop_stability_amended.2 clusterDoc0 (by decide)

/-- C2 counterexample — in the spec's two-document scenario (MachinePool and
Cluster, bounds 2/5, no role) the run succeeds and the MachinePool document
does gain the scaling sub-structure, but the Cluster document is not left
unchanged: it gains an empty controlplane-role annotation. -/
theorem scenario_two_docs_cx :
    (runCAPA c2Flags [] [mpDoc0, clusterDoc0]).1.1 = Except.ok () ∧
    routedDocs c2Flags [mpDoc0, clusterDoc0] [] = [mpDoc0Scaled, clusterDoc0Mut] ∧
    clusterDoc0Mut ≠ clusterDoc0 := by
  refine ⟨rfl, rfl, fun hcontra => ?_⟩
  simp [clusterDoc0Mut, clusterDoc0] at hcontra

/-- C2 amended — in the two-document scenario the run succeeds, the
MachinePool document gains the scaling sub-structure with min 2 and max 5,
the two documents are emitted in order joined by the separator, and the
Cluster document is unchanged except for gaining an empty controlplane-role
annotation. -/
theorem scenario_two_docs_amended :
    runCAPA c2Flags [] [mpDoc0, clusterDoc0] =
      ((Except.ok (), [encodeDoc mpDoc0Scaled ++ "---\n" ++ encodeDoc clusterDoc0Mut]),
       [machinePool, cluster]) ∧
    getNestedMap mpDoc0Scaled ["spec", "scaling"] =
      some [("min", Value.int 2), ("max", Value.int 5)] ∧
    getNestedString clusterDoc0Mut ["metadata", "annotations", controlplaneRoleAnnotation] =
      some "" ∧
    mapGet clusterDoc0Mut "kind" = mapGet clusterDoc0 "kind" :=
  ⟨rfl, rfl, rfl, rfl⟩

/-- Flags with only the machine-pool role intent set. -/
def mpRoleFlags : CAPAFlags := { capaDefaults with managedMachinepoolRole := "mp" }

/-- C3 counterexample — a run requesting the role-propagation intent over a
stream with an AWSManagedControlPlane but no Cluster document fails, but the
violation reads "failed to get ControlPlane to update annotations": it names
the intent, yet not the target kind `Cluster`. -/
theorem cross_kind_gating_cx :
    (runCAPA cpRoleFlags [] [acpDoc0]).1 =
      (Except.error "failed to get ControlPlane to update annotations", []) ∧
    mentions "failed to get ControlPlane to update annotations" cluster = false :=
  ⟨rfl, by decide⟩

/-- The validator rejects, naming AWSManagedControlPlane, whenever the CIDR
or control-plane-role intent is set and that kind was not discovered. -/
theorem validationACP_missing_errs :
    ∀ helper : validationHelper,
      foundIn helper.isFound awsManagedControlPlane = false →
      helper.vpcCidr ≠ "" ∨ helper.managedControlplaneRole ≠ "" →
      isErr (validation helper) = true ∧
      errMentions (validation helper) awsManagedControlPlane = true := by
  intro helper hfound hor
  by_cases hc : helper.vpcCidr = ""
  · rcases hor with h1 | h2
    · exact absurd hc h1
    · have hval : validation helper =
          Except.error "failed to get AWSManagedControlPlane for role configuration" := by
        simp [validation, hfound, hc, h2]
      rw [hval]
      exact ⟨rfl, by decide⟩
  · have hval : validation helper =
        Except.error "failed to get AWSManagedControlPlane for cidr update" := by
      simp [validation, hfound, hc]
    rw [hval]
    exact ⟨rfl, by decide⟩

/-- The validator rejects whenever the machine-pool-role intent is set and
AWSManagedMachinePool was not discovered. -/
theorem validationAMP_missing_errs :
    ∀ helper : validationHelper,
      helper.managedMachinepoolRole ≠ "" →
      foundIn helper.isFound awsManagedMachinePool = false →
      isErr (validation helper) = true := by
  intro helper hrole hfound
  unfold validation
  split_ifs with c1 c2 c3 c4 c5
  · rfl
  · rfl
  · rfl
  · rfl
  · rfl
  · exact absurd (by simp [hfound, hrole]) c4

/-- The validator rejects whenever the control-plane-role intent is set and
Cluster, the role-propagation target, was not discovered. -/
theorem validationCluster_missing_errs :
    ∀ helper : validationHelper,
      helper.managedControlplaneRole ≠ "" →
      foundIn helper.isFound cluster = false →
      isErr (validation helper) = true := by
  intro helper hrole hfound
  unfold validation
  split_ifs with c1 c2 c3 c4 c5
  · rfl
  · rfl
  · rfl
  · rfl
  · rfl
  · exact absurd (by simp [hfound, hrole]) c5

/-- When no earlier check fires, the missing-AWSManagedMachinePool violation
is the one reported, and it names the kind. -/
theorem validationAMP_first_violation :
    ∀ helper : validationHelper,
      foundIn helper.isFound awsManagedControlPlane = true →
      ¬helper.minCount > helper.maxCount →
      helper.managedMachinepoolRole ≠ "" →
      foundIn helper.isFound awsManagedMachinePool = false →
      validation helper =
        Except.error "failed to get AWSManagedMachinePool for role configuration" := by
  intro helper hACP hminmax hrole hfound
  simp [validation, hACP, hminmax, hrole, hfound]

/-- When no earlier check fires, the missing-Cluster violation is the one
reported; it names the annotation-update intent but reads "ControlPlane",
not the target kind Cluster. -/
theorem validationCluster_first_violation :
    ∀ helper : validationHelper,
      foundIn helper.isFound awsManagedControlPlane = true →
      ¬helper.minCount > helper.maxCount →
      helper.managedMachinepoolRole = "" ∨ foundIn helper.isFound awsManagedMachinePool = true →
      helper.managedControlplaneRole ≠ "" →
      foundIn helper.isFound cluster = false →
      validation helper = Except.error "failed to get ControlPlane to update annotations" := by
  intro helper hACP hminmax hor hrole hfound
  rcases hor with h1 | h2
  · simp [validation, hACP, hminmax, h1, hrole, hfound]
  · simp [validation, hACP, hminmax, h2, hrole, hfound]

/-- Set-inclusion of discovered-kind lists, stated through `contains`. -/
def subF (a b : List String) : Prop :=
  ∀ k, a.contains k = true → b.contains k = true

/-- Inclusion is reflexive. -/
theorem subF_refl (a : List String) : subF a a := fun _ h => h

/-- Inclusion is transitive. -/
theorem subF_trans {a b c : List String} (h1 : subF a b) (h2 : subF b c) : subF a c :=
  fun k hk => h2 k (h1 k hk)

/-- A marked kind is contained afterwards. -/
theorem markFound_contains_self (l : List String) (k : String) :
    (markFound l k).contains k = true := by
  unfold markFound
  split
  · assumption
  · simp

/-- Marking preserves containment. -/
theorem markFound_contains_of (l : List String) (k k' : String)
    (h : l.contains k' = true) : (markFound l k).contains k' = true := by
  unfold markFound
  split
  · exact h
  · simp at h ⊢
    exact Or.inl h

/-- Marking an already contained kind changes nothing (the Go map assignment
`isFound[k] = true` is idempotent). -/
theorem markFound_absorb (l : List String) (k : String) (h : l.contains k = true) :
    markFound l k = l := by
  have h' : k ∈ l := by simpa using h
  simp [markFound, h']

/-- A sequence of conditional marks, as performed by the four kind blocks of
the capa routing body. -/
def markSeq (l : List String) (ms : List (Bool × String)) : List String :=
  ms.foldl (fun acc ck => if ck.1 then markFound acc ck.2 else acc) l

/-- A mark sequence only grows the discovered set. -/
theorem subF_markSeq (ms : List (Bool × String)) : ∀ l, subF l (markSeq l ms) := by
  induction ms with
  | nil => exact fun l => subF_refl l
  | cons ck ms ih =>
      intro l k hk
      have h1 : (if ck.1 then markFound l ck.2 else l).contains k = true := by
        split
        · exact markFound_contains_of _ _ _ hk
        · exact hk
      exact ih (if ck.1 then markFound l ck.2 else l) k h1

/-- Replaying a mark sequence over a set that already holds its outcome is
the identity. -/
theorem markSeq_absorb (ms : List (Bool × String)) :
    ∀ found g, subF (markSeq found ms) g → markSeq g ms = g := by
  induction ms with
  | nil => intro found g _; rfl
  | cons ck ms ih =>
      intro found g hsub
      have hg : (if ck.1 then markFound g ck.2 else g) = g := by
        rcases hb : ck.1 with _ | _
        · simp [hb]
        · simp only [hb, if_true]
          apply markFound_absorb
        -- g contains ck.2: it is contained in markSeq found (ck :: ms)
          apply hsub
          have hself : (if ck.1 then markFound found ck.2 else found).contains ck.2 = true := by
            simp only [hb, if_true]
            exact markFound_contains_self found ck.2
          exact subF_markSeq ms (if ck.1 then markFound found ck.2 else found) ck.2 hself
      calc markSeq g (ck :: ms) = markSeq (if ck.1 then markFound g ck.2 else g) ms := rfl
        _ = markSeq g ms := by rw [hg]
        _ = g := ih (if ck.1 then markFound found ck.2 else found) g hsub

/-- The routing outcome of one capa document (success, mutated document,
error) does not depend on the incoming discovery state. -/
theorem processOne_fst_indep (f : CAPAFlags) (d : Doc) (found g : List String) :
    (processOne f d g).1 = (processOne f d found).1 := by
  simp only [processOne]
  rcases h1 : (if getKind d == awsManagedControlPlane then stepACP f d else Except.ok d)
      with e | d1
  · rfl
  · simp only []
    rcases h2 : (if getKind d1 == machinePool
        then SetMPConfiguration d1 f.minNodeCount f.maxNodeCount else Except.ok d1) with e | d2
    · rfl
    · simp only []
      rcases h3 : (if getKind d2 == awsManagedMachinePool then stepAMP f d2 else Except.ok d2)
          with e | d3
      · rfl
      · simp only []
        rcases h4 : (if getKind d3 == cluster
            then clusterAnnotations d3 f.managedControlplaneRole else Except.ok d3)
            with e | d4 <;> rfl

/-- Routing one capa document only grows the discovery state. -/
theorem processOne_snd_mono (f : CAPAFlags) (d : Doc) (found : List String) :
    subF found (processOne f d found).2 := by
  simp only [processOne]
  rcases h1 : (if getKind d == awsManagedControlPlane then stepACP f d else Except.ok d)
      with e | d1
  · exact subF_markSeq [((getKind d == awsManagedControlPlane), awsManagedControlPlane)] found
  · simp only []
    rcases h2 : (if getKind d1 == machinePool
        then SetMPConfiguration d1 f.minNodeCount f.maxNodeCount else Except.ok d1) with e | d2
    · exact subF_markSeq [((getKind d == awsManagedControlPlane), awsManagedControlPlane),
        ((getKind d1 == machinePool), machinePool)] found
    · simp only []
      rcases h3 : (if getKind d2 == awsManagedMachinePool then stepAMP f d2 else Except.ok d2)
          with e | d3
      · exact subF_markSeq [((getKind d == awsManagedControlPlane), awsManagedControlPlane),
          ((getKind d1 == machinePool), machinePool),
          ((getKind d2 == awsManagedMachinePool), awsManagedMachinePool)] found
      · simp only []
        rcases h4 : (if getKind d3 == cluster
            then clusterAnnotations d3 f.managedControlplaneRole else Except.ok d3)
            with e | d4 <;>
          exact subF_markSeq [((getKind d == awsManagedControlPlane), awsManagedControlPlane),
            ((getKind d1 == machinePool), machinePool),
            ((getKind d2 == awsManagedMachinePool), awsManagedMachinePool),
            ((getKind d3 == cluster), cluster)] found

/-- Routing one capa document over a discovery state that already holds
everything the document would mark leaves that state untouched. -/
theorem processOne_snd_absorb (f : CAPAFlags) (d : Doc) (found g : List String)
    (hsub : subF (processOne f d found).2 g) : (processOne f d g).2 = g := by
  simp only [processOne] at hsub ⊢
  rcases h1 : (if getKind d == awsManagedControlPlane then stepACP f d else Except.ok d)
      with e | d1 <;> simp only [h1] at hsub ⊢
  · exact markSeq_absorb
      [((getKind d == awsManagedControlPlane), awsManagedControlPlane)] found g hsub
  · rcases h2 : (if getKind d1 == machinePool
        then SetMPConfiguration d1 f.minNodeCount f.maxNodeCount else Except.ok d1)
        with e | d2 <;> simp only [h2] at hsub ⊢
    · exact markSeq_absorb [((getKind d == awsManagedControlPlane), awsManagedControlPlane),
        ((getKind d1 == machinePool), machinePool)] found g hsub
    · rcases h3 : (if getKind d2 == awsManagedMachinePool then stepAMP f d2 else Except.ok d2)
          with e | d3 <;> simp only [h3] at hsub ⊢
      · exact markSeq_absorb [((getKind d == awsManagedControlPlane), awsManagedControlPlane),
          ((getKind d1 == machinePool), machinePool),
          ((getKind d2 == awsManagedMachinePool), awsManagedMachinePool)] found g hsub
      · rcases h4 : (if getKind d3 == cluster
            then clusterAnnotations d3 f.managedControlplaneRole else Except.ok d3)
            with e | d4 <;> simp only [h4] at hsub ⊢ <;>
          exact markSeq_absorb
            [((getKind d == awsManagedControlPlane), awsManagedControlPlane),
             ((getKind d1 == machinePool), machinePool),
             ((getKind d2 == awsManagedMachinePool), awsManagedMachinePool),
             ((getKind d3 == cluster), cluster)] found g hsub

/-- The capa loop only grows the discovery state. -/
theorem processResources_snd_mono (f : CAPAFlags) :
    ∀ (docs : List Doc) (out : String) (found : List String),
      subF found (processResources f docs out found).2 := by
  intro docs
  induction docs with
  | nil => intro out found; exact subF_refl found
  | cons d rest ih =>
      intro out found
      rcases hp : processOne f d found with ⟨res, found1⟩
      have hmono : subF found found1 := by
        have h := processOne_snd_mono f d found
        rw [hp] at h
        exact h
      cases res with
      | error e =>
          simp only [processResources, hp]
          exact hmono
      | ok d1 =>
          simp only [processResources, hp]
          exact subF_trans hmono (ih (appendOut out (encodeDoc d1)) found1)

/-- Replaying the capa loop over a discovery state that already holds the
final state of a previous pass over the same documents yields the same
outcome and leaves that state untouched. -/
theorem processResources_replay (f : CAPAFlags) :
    ∀ (docs : List Doc) (out : String) (found g : List String),
      subF (processResources f docs out found).2 g →
      processResources f docs out g = ((processResources f docs out found).1, g) := by
  intro docs
  induction docs with
  | nil => intro out found g _; rfl
  | cons d rest ih =>
      intro out found g hsub
      rcases hp : processOne f d found with ⟨res, found1⟩
      have hfst : (processOne f d g).1 = res := by
        have h := processOne_fst_indep f d found g
        rw [hp] at h
        exact h
      cases res with
      | error e =>
          have hsub1 : subF found1 g := by
            simpa only [processResources, hp] using hsub
          have hsnd : (processOne f d g).2 = g := by
            apply processOne_snd_absorb f d found g
            rw [hp]
            exact hsub1
          rcases hq : processOne f d g with ⟨res2, g2⟩
          rw [hq] at hfst hsnd
          subst hfst
          subst hsnd
          simp only [processResources, hq, hp]
      | ok d1 =>
          have hsubfd : subF found1 g := by
            have hmono := processResources_snd_mono f rest (appendOut out (encodeDoc d1)) found1
            have hrun : (processResources f (d :: rest) out found).2 =
                (processResources f rest (appendOut out (encodeDoc d1)) found1).2 := by
              simp only [processResources, hp]
            exact subF_trans hmono (by rw [← hrun]; exact hsub)
          have hsnd : (processOne f d g).2 = g := by
            apply processOne_snd_absorb f d found g
            rw [hp]
            exact hsubfd
          have hq : processOne f d g = (Except.ok d1, g) := by
            rcases hpg : processOne f d g with ⟨a, b⟩
            rw [hpg] at hfst hsnd
            exact Prod.ext_iff.mpr ⟨hfst, hsnd⟩
          have hrest := ih (appendOut out (encodeDoc d1)) found1 g
            (by simpa only [processResources, hp] using hsub)
          simp only [processResources, hq, hp]
          exact hrest

/-- The discovery state a capa run leaves behind is the one its processing
loop reached, whether or not validation accepted. -/
theorem runCAPA_snd (f : CAPAFlags) (found0 : List String) (docs : List Doc) :
    (runCAPA f found0 docs).2 = (processResources f docs "" found0).2 := by
  unfold runCAPA
  rcases hp : processResources f docs "" found0 with ⟨res, found1⟩
  cases res with
  | error e => rfl
  | ok out =>
      rcases hv : validation (mkHelper f found1) with e | u <;> simp [hv]

/-- C7 counterexample — the discovery state is command-local, not run-local:
a fresh capa run with the CIDR intent over an empty stream fails validation,
but a run over an AWSManagedControlPlane document leaves that kind recorded
in the command's `isFound` map, and a following run of the same command
instance over the same empty stream then passes validation and writes
output. The state of one run leaks into the next and changes its outcome. -/
theorem retry_determinism_cx :
    (runCAPA cidrFlags [] ([] : List Doc)).1 =
      (Except.error "failed to get AWSManagedControlPlane for cidr update", []) ∧
    (runCAPA cidrFlags [] [acpDoc0]).2 = [awsManagedControlPlane] ∧
    (runCAPA cidrFlags [awsManagedControlPlane] ([] : List Doc)).1 = (Except.ok (), [""]) :=
  ⟨rfl, rfl, rfl⟩

/-- C7 amended — a capa run is a pure function of the flags, the incoming
discovery state and the input documents, so two runs from equal starting
points are identical; and re-running the same input on the same command
instance (whose `isFound` map carries the first run's final state) repeats
the first run's outcome, writes and final state exactly. The discovery state
is however command-local rather than run-local: it survives into the next
run of the same instance, and a second run over a different input can
observe kinds discovered by the first and reach a different outcome than a
fresh run would. -/
theorem retry_determinism_amended (f : CAPAFlags) (found0 : List String) (docs : List Doc) :
    runCAPA f ((runCAPA f found0 docs).2) docs = runCAPA f found0 docs := by
  rw [runCAPA_snd]
  have hrep := processResources_replay f docs "" found0
    ((processResources f docs "" found0).2) (subF_refl _)
  unfold runCAPA
  rw [hrep]

/-- The nested-field editor fails whenever the path reaches, at a
non-final segment, a field holding a non-container value, whatever prefix
it was called under. -/
theorem setNestedRec_blocked :
    ∀ (pre : List String) (m m' : Doc) (pref : List String) (k : String)
      (rest : List String) (v w : Value),
      rest ≠ [] → getNestedMap m pre = some m' → mapGet m' k = some w →
      isMapV w = false → isErr (setNestedRec m pref (pre ++ k :: rest) v) = true := by
  intro pre
  induction pre with
  | nil =>
      intro m m' pref k rest v w hrest hget hk hw
      have hm : m = m' := by simpa [getNestedMap] using hget
      subst hm
      cases rest with
      | nil => exact absurd rfl hrest
      | cons r rs =>
          cases w with
          | map inner => simp [isMapV] at hw
          | null => simp [setNestedRec, hk, isErr]
          | str s => simp [setNestedRec, hk, isErr]
          | int n => simp [setNestedRec, hk, isErr]
          | seq vs => simp [setNestedRec, hk, isErr]
  | cons p pre' ih =>
      intro m m' pref k rest v w hrest hget hk hw
      rcases hmp : mapGet m p with _ | vp
      · rw [getNestedMap, hmp] at hget
        exact absurd hget (by simp)
      · cases vp with
        | map inner =>
            have hget' : getNestedMap inner pre' = some m' := by
              rw [getNestedMap, hmp] at hget
              exact hget
            have hrec := ih inner m' (pref ++ [p]) k rest v w hrest hget' hk hw
            rcases hpre : pre' ++ k :: rest with _ | ⟨q, qs⟩
            · exact absurd hpre (by simp)
            · rw [List.cons_append, hpre]
              rw [hpre] at hrec
              rcases hres : setNestedRec inner (pref ++ [p]) (q :: qs) v with e | inner1
              · simp [setNestedRec, hmp, hres, isErr]
              · rw [hres] at hrec
                exact absurd hrec (by simp [isErr])
        | null =>
            rw [getNestedMap, hmp] at hget
            exact absurd hget (by simp)
        | str s =>
            rw [getNestedMap, hmp] at hget
            exact absurd hget (by simp)
        | int n =>
            rw [getNestedMap, hmp] at hget
            exact absurd hget (by simp)
        | seq vs =>
            rw [getNestedMap, hmp] at hget
            exact absurd hget (by simp)

/-- If some document of a capk stream fails to route, the capk loop fails. -/
theorem processResourcesCAPK_err :
    ∀ (docs : List Doc) (out : String),
      (∃ d ∈ docs, isErr (processOneCAPK d) = true) →
      isErr (processResourcesCAPK docs out) = true := by
  intro docs
  induction docs with
  | nil => intro out h; exact absurd h (by simp)
  | cons d rest ih =>
      intro out h
      rcases hp : processOneCAPK d with e | d1
      · simp [processResourcesCAPK, hp, isErr]
      · rcases h with ⟨w, hw, hwe⟩
        rcases List.mem_cons.mp hw with rfl | hw'
        · rw [hp] at hwe
          exact absurd hwe (by simp [isErr])
        · simp only [processResourcesCAPK, hp]
          exact ih (appendOut out (encodeDoc d1)) ⟨w, hw', hwe⟩

/-- If some document of a capa stream fails to route, the capa loop fails,
whatever discovery state it starts from. -/
theorem processResources_err (f : CAPAFlags) :
    ∀ (docs : List Doc) (out : String) (found : List String),
      (∃ d ∈ docs, isErr ((processOne f d []).1) = true) →
      isErr ((processResources f docs out found).1) = true := by
  intro docs
  induction docs with
  | nil => intro out found h; exact absurd h (by simp)
  | cons d rest ih =>
      intro out found h
      rcases hp : processOne f d found with ⟨res, found1⟩
      cases res with
      | error e => simp [processResources, hp, isErr]
      | ok d1 =>
          rcases h with ⟨w, hw, hwe⟩
          rcases List.mem_cons.mp hw with rfl | hw'
          · have hind := processOne_fst_indep f w found []
            rw [hp] at hind
            rw [hind] at hwe
            exact absurd hwe (by simp [isErr])
          · simp only [processResources, hp]
            exact ih (appendOut out (encodeDoc d1)) found1 ⟨w, hw', hwe⟩

/-- C8 — Fail-fast on a malformed path: writing through a field that already
holds a non-container value makes the nested-field editor return an edit
error rather than coerce the value, and a stream containing a document whose
routing fails that way makes the whole run of either command fail with no
output written. -/
theorem fail_fast_on_malformed_path :
    (∀ (m m' : Doc) (pre : List String) (k : String) (rest : List String) (v w : Value),
      rest ≠ [] → getNestedMap m pre = some m' → mapGet m' k = some w → isMapV w = false →
      isErr (SetNestedField m v (pre ++ k :: rest)) = true) ∧
    (∀ (f : CAPAFlags) (found0 : List String) (docs : List Doc),
      (∃ d ∈ docs, isErr ((processOne f d []).1) = true) →
      isErr ((runCAPA f found0 docs).1.1) = true ∧ (runCAPA f found0 docs).1.2 = []) ∧
    (∀ docs : List Doc, (∃ d ∈ docs, isErr (processOneCAPK d) = true) →
      isErr ((runCAPK docs).1) = true ∧ (runCAPK docs).2 = []) := by
  refine ⟨?_, ?_, ?_⟩
  · intro m m' pre k rest v w hrest hget hk hw
    exact setNestedRec_blocked pre m m' [] k rest v w hrest hget hk hw
  · intro f found0 docs h
    have herr : isErr ((processResources f docs "" found0).1) = true :=
      processResources_err f docs "" found0 h
    have houtcome : isErr ((runCAPA f found0 docs).1.1) = true := by
      unfold runCAPA
      rcases hp : processResources f docs "" found0 with ⟨res, found1⟩
      rw [hp] at herr
      cases res with
      | error e => rfl
      | ok out => exact absurd herr (by simp [isErr])
    exact ⟨houtcome, runCAPA_fail_no_writes f found0 docs houtcome⟩
  · intro docs h
    have herr : isErr (processResourcesCAPK docs "") = true :=
      processResourcesCAPK_err docs "" h
    have houtcome : isErr ((runCAPK docs).1) = true := by
      unfold runCAPK
      rcases hp : processResourcesCAPK docs "" with e | out
      · rfl
      · rw [hp] at herr
        exact absurd herr (by simp [isErr])
    exact ⟨houtcome, runCAPK_fail_no_writes docs houtcome⟩

/-- C8 witness: the capk bootstrap path blocked by a scalar `spec`, a capa
run over a Cluster document with a scalar `metadata`, and a capk run over
the blocked document — all fail with no output. -/
theorem fail_fast_on_malformed_path_witness :
    isErr (SetNestedField [("spec", Value.str "oops")] (Value.str "none")
      ([] ++ "spec" :: ["template", "spec", "virtualMachineBootstrapCheck",
        "checkStrategy"])) = true ∧
    (isErr ((runCAPA capaDefaults [] [clusterBadDoc]).1.1) = true ∧
      (runCAPA capaDefaults [] [clusterBadDoc]).1.2 = []) ∧
    (isErr ((runCAPK [kmtBadDoc]).1) = true ∧ (runCAPK [kmtBadDoc]).2 = []) :=
  ⟨fail_fast_on_malformed_path.1 [("spec", Value.str "oops")] [("spec", Value.str "oops")]
      [] "spec" ["template", "spec", "virtualMachineBootstrapCheck", "checkStrategy"]
      (Value.str "none") (Value.str "oops") (by simp) rfl rfl rfl,
   fail_fast_on_malformed_path.2.1 capaDefaults [] [clusterBadDoc]
      ⟨clusterBadDoc, List.mem_singleton.mpr rfl, rfl⟩,
   fail_fast_on_malformed_path.2.2 [kmtBadDoc]
      ⟨kmtBadDoc, List.mem_singleton.mpr rfl, rfl⟩⟩

/-- A map assignment makes the assigned key hold exactly the assigned value. -/
theorem mapGet_mapSet_self (m : Doc) (k : String) (v : Value) :
    mapGet (mapSet m k v) k = some v := by
  induction m with
  | nil => simp [mapSet, mapGet]
  | cons kv rest ih =>
      rcases kv with ⟨k', w⟩
      by_cases h : (k' == k) = true
      · simp [mapSet, mapGet, h]
      · simp only [mapSet, mapGet, h, Bool.false_eq_true, if_false, if_neg]
        exact ih

/-- C9 — Subtree replacement, not leaf merge: on a document whose `spec`
field holds a map, the CIDR rule rebinds `spec.network` to exactly the fresh
vpc/cidrBlock mapping and the scaling rule rebinds `spec.scaling` to exactly
the fresh minSize/maxSize mapping, irrespective of (and discarding) whatever
those sub-maps previously held. -/
theorem subtree_replacement (m spec0 : Doc) (vpcCidr : String) (minN maxN : Int)
    (hspec : mapGet m "spec" = some (Value.map spec0)) :
    managedCPCIDR m vpcCidr =
      Except.ok (mapSet m "spec" (Value.map (mapSet spec0 "network"
        (Value.map [("vpc", Value.map [("cidrBlock", Value.str vpcCidr)])])))) ∧
    getNestedMap (mapSet m "spec" (Value.map (mapSet spec0 "network"
        (Value.map [("vpc", Value.map [("cidrBlock", Value.str vpcCidr)])]))))
      ["spec", "network"] = some [("vpc", Value.map [("cidrBlock", Value.str vpcCidr)])] ∧
    managedMPScaling m minN maxN =
      Except.ok (mapSet m "spec" (Value.map (mapSet spec0 "scaling"
        (Value.map [("minSize", Value.int minN), ("maxSize", Value.int maxN)])))) ∧
    getNestedMap (mapSet m "spec" (Value.map (mapSet spec0 "scaling"
        (Value.map [("minSize", Value.int minN), ("maxSize", Value.int maxN)]))))
      ["spec", "scaling"] = some [("minSize", Value.int minN), ("maxSize", Value.int maxN)] := by
  refine ⟨?_, ?_, ?_, ?_⟩
  · simp [managedCPCIDR, SetNestedMap, SetNestedField, setNestedRec, hspec]
  · simp [getNestedMap, mapGet_mapSet_self]
  · simp [managedMPScaling, SetNestedMap, SetNestedField, setNestedRec, hspec]
  · simp [getNestedMap, mapGet_mapSet_self]

/-- An AWSManagedControlPlane document with pre-existing content under
`spec.network` and a sibling field under `spec`. -/
def acpDocPre : Doc :=
  [("kind", Value.str "AWSManagedControlPlane"),
   ("spec", Value.map [("network", Value.map [("stale", Value.str "x")]),
     ("other", Value.str "keep")])]

/-- The document `acpDocPre` after the CIDR rule: `spec.network` holds only
the fresh vpc/cidrBlock mapping (the stale field is gone), the sibling field
is kept. -/
def acpDocPreCIDR : Doc :=
  [("kind", Value.str "AWSManagedControlPlane"),
   ("spec", Value.map
     [("network", Value.map [("vpc", Value.map [("cidrBlock", Value.str "10.0.0.0/16")])]),
      ("other", Value.str "keep")])]

/-- C9 witness: on a document with stale `spec.network` content the CIDR
rule yields exactly the replaced subtree. -/
theorem subtree_replacement_witness :
    managedCPCIDR acpDocPre "10.0.0.0/16" = Except.ok acpDocPreCIDR ∧
    getNestedMap acpDocPreCIDR ["spec", "network"] =
      some [("vpc", Value.map [("cidrBlock", Value.str "10.0.0.0/16")])] := by
  have h := subtree_replacement acpDocPre
    [("network", Value.map [("stale", Value.str "x")]), ("other", Value.str "keep")]
    "10.0.0.0/16" 2 5 rfl
  exact ⟨h.1, h.2.1⟩

/-- A nonempty string has positive length. -/
theorem string_length_pos_of_ne {s : String} (h : s ≠ "") : 0 < s.length := by
  cases s with
  | mk data =>
      cases data with
      | nil => exact absurd rfl h
      | cons c cs => simp [String.length]

/-- Appending to a nonempty string keeps it nonempty. -/
theorem string_append_ne_empty_left {a : String} (b : String) (h : a ≠ "") :
    a ++ b ≠ "" := by
  intro hc
  have hl : a.length + b.length = 0 := by
    simpa [String.length_append] using congrArg String.length hc
  have ha := string_length_pos_of_ne h
  omega

/-- A re-encoded document is never the empty string (as with `yaml.Marshal`,
which emits at least a newline-terminated empty mapping). -/
theorem encodeDoc_ne_empty (d : Doc) : encodeDoc d ≠ "" := by
  unfold encodeDoc
  exact string_append_ne_empty_left ")"
    (string_append_ne_empty_left (encodeFields d) (by decide))

/-- The separator-prefixed join of a list of pieces. -/
def sepJoin : List String → String
  | [] => ""
  | p :: rest => "---\n" ++ p ++ sepJoin rest

/-- Joining with no leading separator is the head followed by the
separator-prefixed join of the tail. -/
theorem joinSep_eq_sepJoin : ∀ (rest : List String) (p : String),
    joinSep (p :: rest) = p ++ sepJoin rest := by
  intro rest
  induction rest with
  | nil => intro p; simp [joinSep, sepJoin]
  | cons q rs ih =>
      intro p
      calc joinSep (p :: q :: rs) = p ++ "---\n" ++ joinSep (q :: rs) := rfl
        _ = p ++ "---\n" ++ (q ++ sepJoin rs) := by rw [ih q]
        _ = p ++ sepJoin (q :: rs) := by simp [sepJoin, String.append_assoc]

/-- Buffer appending from a nonempty buffer inserts a separator before every
piece. -/
theorem buildOut_of_ne : ∀ (pieces : List String) (out : String), out ≠ "" →
    buildOut out pieces = out ++ sepJoin pieces := by
  intro pieces
  induction pieces with
  | nil => intro out h; simp [buildOut, sepJoin]
  | cons p rest ih =>
      intro out h
      have hlen : 0 < out.length := string_length_pos_of_ne h
      have happ : appendOut out p = out ++ "---\n" ++ p := by
        simp [appendOut, hlen]
      have hne : appendOut out p ≠ "" := by
        rw [happ]
        exact string_append_ne_empty_left p (string_append_ne_empty_left "---\n" h)
      calc buildOut out (p :: rest) = buildOut (appendOut out p) rest := rfl
        _ = appendOut out p ++ sepJoin rest := ih (appendOut out p) hne
        _ = out ++ sepJoin (p :: rest) := by rw [happ]; simp [sepJoin, String.append_assoc]

/-- Buffer appending from the empty buffer joins the pieces with the
separator convention: separators between pieces, none before the first. -/
theorem buildOut_empty_eq_joinSep (pieces : List String)
    (h : ∀ p ∈ pieces, p ≠ "") : buildOut "" pieces = joinSep pieces := by
  cases pieces with
  | nil => rfl
  | cons p rest =>
      have hp : p ≠ "" := h p (by simp)
      calc buildOut "" (p :: rest) = buildOut p rest := by simp [buildOut, appendOut]
        _ = p ++ sepJoin rest := buildOut_of_ne rest p hp
        _ = joinSep (p :: rest) := (joinSep_eq_sepJoin rest p).symm

/-- A successful capa loop is the per-document routing of the stream, with
the buffer accumulating the re-encodings in order. -/
theorem processResources_ok_routeList (f : CAPAFlags) :
    ∀ (docs : List Doc) (out : String) (found : List String) (o : String) (fd : List String),
      processResources f docs out found = (Except.ok o, fd) →
      ∃ ds : List Doc, routeList f docs found = (Except.ok ds, fd) ∧
        o = buildOut out (ds.map encodeDoc) ∧ ds.length = docs.length := by
  intro docs
  induction docs with
  | nil =>
      intro out found o fd hp
      have h1 : out = o := congrArg (fun q => match q.1 with
        | Except.ok s => s
        | Except.error _ => out) hp
      have h2 : found = fd := congrArg Prod.snd hp
      subst h1
      subst h2
      exact ⟨[], rfl, rfl, rfl⟩
  | cons d rest ih =>
      intro out found o fd hp
      rcases hq : processOne f d found with ⟨res, found1⟩
      cases res with
      | error e =>
          rw [processResources, hq] at hp
          exact absurd (congrArg (fun q => isErr q.1) hp) (by simp [isErr])
      | ok d1 =>
          rw [processResources, hq] at hp
          rcases ih (appendOut out (encodeDoc d1)) found1 o fd hp with ⟨ds, hroute, hout, hlen⟩
          refine ⟨d1 :: ds, ?_, ?_, ?_⟩
          · simp only [routeList, hq, hroute]
          · exact hout
          · simpa using hlen

/-- A successful capk loop is the per-document routing of the stream, with
the buffer accumulating the re-encodings in order. -/
theorem processResourcesCAPK_ok_routeList :
    ∀ (docs : List Doc) (out : String) (o : String),
      processResourcesCAPK docs out = Except.ok o →
      ∃ ds : List Doc, routeListCAPK docs = Except.ok ds ∧
        o = buildOut out (ds.map encodeDoc) ∧ ds.length = docs.length := by
  intro docs
  induction docs with
  | nil =>
      intro out o hp
      have h1 : out = o := by simpa [processResourcesCAPK] using hp
      subst h1
      exact ⟨[], rfl, rfl, rfl⟩
  | cons d rest ih =>
      intro out o hp
      rcases hq : processOneCAPK d with e | d1
      · rw [processResourcesCAPK, hq] at hp
        exact absurd (congrArg isErr hp) (by simp [isErr])
      · rw [processResourcesCAPK, hq] at hp
        rcases ih (appendOut out (encodeDoc d1)) o hp with ⟨ds, hroute, hout, hlen⟩
        refine ⟨d1 :: ds, ?_, ?_, ?_⟩
        · simp only [routeListCAPK, hq, hroute]
        · exact hout
        · simpa using hlen

/-- C6 — Order preservation and separator convention: every successful run
of either command emits one stdout write holding exactly the per-document
re-encodings of the routed stream, as many as the input documents and in
the same relative order, joined by the `---` separator with no separator
before the first document. -/
theorem order_preservation :
    (∀ (f : CAPAFlags) (found0 : List String) (docs : List Doc),
      (runCAPA f found0 docs).1.1 = Except.ok () →
      (routedDocs f docs found0).length = docs.length ∧
      (runCAPA f found0 docs).1.2 =
        [joinSep ((routedDocs f docs found0).map encodeDoc)]) ∧
    (∀ docs : List Doc,
      (runCAPK docs).1 = Except.ok () →
      (routedDocsCAPK docs).length = docs.length ∧
      (runCAPK docs).2 = [joinSep ((routedDocsCAPK docs).map encodeDoc)]) := by
  constructor
  · intro f found0 docs hsucc
    unfold runCAPA at hsucc ⊢
    rcases hp : processResources f docs "" found0 with ⟨res, fd⟩
    rw [hp] at hsucc
    cases res with
    | error e => exact absurd hsucc (by simp)
    | ok out =>
        simp only [] at hsucc ⊢
        rcases hv : validation (mkHelper f fd) with e | u
        · rw [hv] at hsucc
          exact absurd hsucc (by simp)
        · rw [hv] at hsucc
          rcases processResources_ok_routeList f docs "" found0 out fd hp
            with ⟨ds, hroute, hout, hlen⟩
          have hrouted : routedDocs f docs found0 = ds := by
            unfold routedDocs
            rw [hroute]
          have hjoin : out = joinSep (ds.map encodeDoc) := by
            rw [hout]
            exact buildOut_empty_eq_joinSep (ds.map encodeDoc) (by
              intro p hpmem
              rcases List.mem_map.mp hpmem with ⟨dd, _, rfl⟩
              exact encodeDoc_ne_empty dd)
          rw [hrouted, hlen, ← hjoin]
          exact ⟨rfl, rfl⟩
  · intro docs hsucc
    unfold runCAPK at hsucc ⊢
    rcases hp : processResourcesCAPK docs "" with e | out
    · rw [hp] at hsucc
      exact absurd hsucc (by simp)
    · rcases processResourcesCAPK_ok_routeList docs "" out hp
        with ⟨ds, hroute, hout, hlen⟩
      have hrouted : routedDocsCAPK docs = ds := by
        unfold routedDocsCAPK
        rw [hroute]
      have hjoin : out = joinSep (ds.map encodeDoc) := by
        rw [hout]
        exact buildOut_empty_eq_joinSep (ds.map encodeDoc) (by
          intro p hpmem
          rcases List.mem_map.mp hpmem with ⟨dd, _, rfl⟩
          exact encodeDoc_ne_empty dd)
      rw [hrouted, hlen, ← hjoin]
      exact ⟨rfl, rfl⟩

/-- C6 witness: the two-document scenario run emits one write with both
re-encoded documents in order, and a capk run over one document emits its
single re-encoding. -/
theorem order_preservation_witness :
    ((routedDocs c2Flags [mpDoc0, clusterDoc0] []).length = 2 ∧
      (runCAPA c2Flags [] [mpDoc0, clusterDoc0]).1.2 =
        [joinSep ((routedDocs c2Flags [mpDoc0, clusterDoc0] []).map encodeDoc)]) ∧
    ((routedDocsCAPK [kmtDoc0]).length = 1 ∧
      (runCAPK [kmtDoc0]).2 = [joinSep ((routedDocsCAPK [kmtDoc0]).map encodeDoc)]) :=
  ⟨order_preservation.1 c2Flags [] [mpDoc0, clusterDoc0] rfl,
   order_preservation.2 [kmtDoc0] rfl⟩

/-- A map assignment leaves every other key's binding unchanged. -/
theorem mapGet_mapSet_other (key : String) :
    ∀ (m : Doc) (k : String) (v : Value), (k == key) = false →
      mapGet (mapSet m k v) key = mapGet m key := by
  intro m
  induction m with
  | nil =>
      intro k v h
      simp [mapSet, mapGet, h]
  | cons kv rest ih =>
      rcases kv with ⟨k1, w⟩
      intro k v h
      by_cases hk : (k1 == k) = true
      · have hkk : k1 = k := eq_of_beq hk
        subst hkk
        simp [mapSet, mapGet, h]
      · by_cases hky : (k1 == key) = true
        · simp [mapSet, hk, mapGet, hky]
        · simp only [mapSet, hk, Bool.false_eq_true, if_false, mapGet, hky]
          exact ih k v h

/-- A successful nested-field write whose first segment is not `key` leaves
the `key` binding of the document unchanged. -/
theorem setNestedRec_preserves_other (key k0 : String) (rest0 : List String)
    (m m1 : Doc) (pref : List String) (v : Value) (hk : (k0 == key) = false)
    (h : setNestedRec m pref (k0 :: rest0) v = Except.ok m1) :
    mapGet m1 key = mapGet m key := by
  cases rest0 with
  | nil =>
      have hm : m1 = mapSet m k0 v := by
        have := h
        simp only [setNestedRec] at this
        exact (Except.ok.injEq _ _).mp this.symm
      rw [hm]
      exact mapGet_mapSet_other key m k0 v hk
  | cons r rs =>
      rcases hmp : mapGet m k0 with _ | v0
      · simp only [setNestedRec, hmp] at h
        rcases hrec : setNestedRec [] (pref ++ [k0]) (r :: rs) v with e | inner1
        · simp only [hrec] at h
          exact absurd h (by simp)
        · simp only [hrec] at h
          have hm : mapSet m k0 (Value.map inner1) = m1 := (Except.ok.injEq _ _).mp h
          rw [← hm]
          exact mapGet_mapSet_other key m k0 _ hk
      · cases v0 with
        | map inner =>
            simp only [setNestedRec, hmp] at h
            rcases hrec : setNestedRec inner (pref ++ [k0]) (r :: rs) v with e | inner1
            · simp only [hrec] at h
              exact absurd h (by simp)
            · simp only [hrec] at h
              have hm : mapSet m k0 (Value.map inner1) = m1 := (Except.ok.injEq _ _).mp h
              rw [← hm]
              exact mapGet_mapSet_other key m k0 _ hk
        | null => simp only [setNestedRec, hmp] at h; exact absurd h (by simp)
        | str s => simp only [setNestedRec, hmp] at h; exact absurd h (by simp)
        | int n => simp only [setNestedRec, hmp] at h; exact absurd h (by simp)
        | seq vs => simp only [setNestedRec, hmp] at h; exact absurd h (by simp)

/-- A successful nested-field write whose first segment is not `kind` leaves
the document's kind unchanged. -/
theorem getKind_SetNestedField (d d1 : Doc) (v : Value) (k0 : String)
    (rest0 : List String) (hk : (k0 == "kind") = false)
    (h : SetNestedField d v (k0 :: rest0) = Except.ok d1) : getKind d1 = getKind d := by
  unfold getKind
  rw [setNestedRec_preserves_other "kind" k0 rest0 d d1 [] v hk h]

/-- The AWSManagedControlPlane block's edits never change the document's
kind (both write under `spec`). -/
theorem getKind_stepACP (f : CAPAFlags) (d dout : Doc)
    (h : stepACP f d = Except.ok dout) : getKind dout = getKind d := by
  unfold stepACP at h
  rcases h1 : (if f.vpcCidr != "" then managedCPCIDR d f.vpcCidr else Except.ok d)
      with e | dx
  · rw [h1] at h
    exact absurd h (by simp)
  · rw [h1] at h
    simp only [] at h
    have hdx : getKind dx = getKind d := by
      by_cases hc : (f.vpcCidr != "") = true
      · rw [if_pos hc] at h1
        exact getKind_SetNestedField d dx _ "spec" ["network"] (by decide) h1
      · rw [if_neg hc] at h1
        have hd : d = dx := (Except.ok.injEq _ _).mp h1
        rw [hd]
    have hd1 : getKind dout = getKind dx := by
      by_cases hc2 : (f.managedControlplaneRole != "") = true
      · rw [if_pos hc2] at h
        exact getKind_SetNestedField dx dout _ "spec" ["roleName"] (by decide) h
      · rw [if_neg hc2] at h
        have hd : dx = dout := (Except.ok.injEq _ _).mp h
        rw [hd]
    rw [hd1, hdx]

/-- The AWSManagedMachinePool block's edits never change the document's
kind (both write under `spec`). -/
theorem getKind_stepAMP (f : CAPAFlags) (d dout : Doc)
    (h : stepAMP f d = Except.ok dout) : getKind dout = getKind d := by
  unfold stepAMP at h
  rcases h1 : managedMPScaling d f.minNodeCount f.maxNodeCount with e | dx
  · rw [h1] at h
    exact absurd h (by simp)
  · rw [h1] at h
    simp only [] at h
    have hdx : getKind dx = getKind d :=
      getKind_SetNestedField d dx _ "spec" ["scaling"] (by decide) h1
    have hd1 : getKind dout = getKind dx := by
      by_cases hc2 : (f.managedMachinepoolRole != "") = true
      · rw [if_pos hc2] at h
        exact getKind_SetNestedField dx dout _ "spec" ["roleName"] (by decide) h
      · rw [if_neg hc2] at h
        have hd : dx = dout := (Except.ok.injEq _ _).mp h
        rw [hd]
    rw [hd1, hdx]

/-- A conditional kind-block edit that preserves the kind when it fires
preserves the kind overall. -/
theorem getKind_stage (c : Bool) (edit : Doc → Except String Doc) (d dout : Doc)
    (hedit : ∀ dx, edit d = Except.ok dx → getKind dx = getKind d)
    (h : (if c then edit d else Except.ok d) = Except.ok dout) :
    getKind dout = getKind d := by
  by_cases hc : c = true
  · rw [if_pos hc] at h
    exact hedit dout h
  · rw [if_neg hc] at h
    have hd : d = dout := (Except.ok.injEq _ _).mp h
    rw [hd]

/-- A kind contained after a mark was contained before or is the marked
kind. -/
theorem markFound_contains_inv (l : List String) (k k1 : String)
    (h : (markFound l k).contains k1 = true) : l.contains k1 = true ∨ k1 = k := by
  unfold markFound at h
  split at h
  · exact Or.inl h
  · simp at h ⊢
    tauto

/-- A kind contained after a sequence of conditional marks was contained
before or is one of the kinds whose condition fired. -/
theorem markSeq_contains_inv (ms : List (Bool × String)) :
    ∀ (l : List String) (k : String), (markSeq l ms).contains k = true →
      l.contains k = true ∨ ∃ ck ∈ ms, ck.1 = true ∧ ck.2 = k := by
  induction ms with
  | nil => intro l k h; exact Or.inl h
  | cons c ms ih =>
      intro l k h
      rcases ih (if c.1 then markFound l c.2 else l) k h with h1 | ⟨ck, hmem, hb, hk2⟩
      · by_cases hc : c.1 = true
        · rw [if_pos hc] at h1
          rcases markFound_contains_inv l c.2 k h1 with h2 | h2
          · exact Or.inl h2
          · exact Or.inr ⟨c, List.mem_cons_self c ms, hc, h2.symm⟩
        · rw [if_neg hc] at h1
          exact Or.inl h1
      · exact Or.inr ⟨ck, List.mem_cons_of_mem c hmem, hb, hk2⟩

/-- Any kind that routing one capa document adds to the discovery state is
the (edit-invariant) kind of that document. -/
theorem processOne_snd_inv (f : CAPAFlags) (d : Doc) (found : List String) (k : String)
    (h : ((processOne f d found).2).contains k = true) :
    found.contains k = true ∨ getKind d = k := by
  simp only [processOne] at h
  rcases h1 : (if getKind d == awsManagedControlPlane then stepACP f d else Except.ok d)
      with e | d1 <;> simp only [h1] at h
  · rcases markSeq_contains_inv
        [((getKind d == awsManagedControlPlane), awsManagedControlPlane)] found k h
        with h' | ⟨ck, hmem, hb, hk2⟩
    · exact Or.inl h'
    · simp only [List.mem_singleton] at hmem
      subst hmem
      exact Or.inr (by rw [← hk2]; exact eq_of_beq hb)
  · have hkd1 : getKind d1 = getKind d :=
      getKind_stage _ _ d d1 (fun dx hx => getKind_stepACP f d dx hx) h1
    rcases h2 : (if getKind d1 == machinePool
        then SetMPConfiguration d1 f.minNodeCount f.maxNodeCount else Except.ok d1)
        with e | d2 <;> simp only [h2] at h
    · rcases markSeq_contains_inv
          [((getKind d == awsManagedControlPlane), awsManagedControlPlane),
           ((getKind d1 == machinePool), machinePool)] found k h
          with h' | ⟨ck, hmem, hb, hk2⟩
      · exact Or.inl h'
      · simp only [List.mem_cons, List.mem_singleton, List.not_mem_nil, or_false] at hmem
        rcases hmem with rfl | rfl
        · exact Or.inr (by rw [← hk2]; exact eq_of_beq hb)
        · exact Or.inr (by rw [← hk2, ← hkd1]; exact eq_of_beq hb)
    · have hkd2 : getKind d2 = getKind d := by
        have := getKind_stage (getKind d1 == machinePool)
          (fun dd => SetMPConfiguration dd f.minNodeCount f.maxNodeCount) d1 d2
          (fun dx hx => getKind_SetNestedField d1 dx
            (Value.map [("min", Value.int f.minNodeCount), ("max", Value.int f.maxNodeCount)])
            "spec" ["scaling"] (by decide) hx) h2
        rw [this, hkd1]
      rcases h3 : (if getKind d2 == awsManagedMachinePool then stepAMP f d2 else Except.ok d2)
          with e | d3 <;> simp only [h3] at h
      · rcases markSeq_contains_inv
            [((getKind d == awsManagedControlPlane), awsManagedControlPlane),
             ((getKind d1 == machinePool), machinePool),
             ((getKind d2 == awsManagedMachinePool), awsManagedMachinePool)] found k h
            with h' | ⟨ck, hmem, hb, hk2⟩
        · exact Or.inl h'
        · simp only [List.mem_cons, List.mem_singleton, List.not_mem_nil, or_false] at hmem
          rcases hmem with rfl | rfl | rfl
          · exact Or.inr (by rw [← hk2]; exact eq_of_beq hb)
          · exact Or.inr (by rw [← hk2, ← hkd1]; exact eq_of_beq hb)
          · exact Or.inr (by rw [← hk2, ← hkd2]; exact eq_of_beq hb)
      · have hkd3 : getKind d3 = getKind d := by
          have := getKind_stage _ _ d2 d3 (fun dx hx => getKind_stepAMP f d2 dx hx) h3
          rw [this, hkd2]
        rcases h4 : (if getKind d3 == cluster
            then clusterAnnotations d3 f.managedControlplaneRole else Except.ok d3)
            with e | d4 <;> simp only [h4] at h <;>
          · rcases markSeq_contains_inv
              [((getKind d == awsManagedControlPlane), awsManagedControlPlane),
               ((getKind d1 == machinePool), machinePool),
               ((getKind d2 == awsManagedMachinePool), awsManagedMachinePool),
               ((getKind d3 == cluster), cluster)] found k h
              with h' | ⟨ck, hmem, hb, hk2⟩
            · exact Or.inl h'
            · simp only [List.mem_cons, List.mem_singleton, List.not_mem_nil, or_false] at hmem
              rcases hmem with rfl | rfl | rfl | rfl
              · exact Or.inr (by rw [← hk2]; exact eq_of_beq hb)
              · exact Or.inr (by rw [← hk2, ← hkd1]; exact eq_of_beq hb)
              · exact Or.inr (by rw [← hk2, ← hkd2]; exact eq_of_beq hb)
              · exact Or.inr (by rw [← hk2, ← hkd3]; exact eq_of_beq hb)

/-- Any kind the capa loop adds to the discovery state is the kind of some
document of the stream. -/
theorem processResources_snd_inv (f : CAPAFlags) :
    ∀ (docs : List Doc) (out : String) (found : List String) (k : String),
      ((processResources f docs out found).2).contains k = true →
      found.contains k = true ∨ ∃ d ∈ docs, getKind d = k := by
  intro docs
  induction docs with
  | nil => intro out found k h; exact Or.inl h
  | cons d rest ih =>
      intro out found k h
      rcases hp : processOne f d found with ⟨res, found1⟩
      have hone : found1.contains k = true → found.contains k = true ∨ getKind d = k := by
        intro hc
        have := processOne_snd_inv f d found k
        rw [hp] at this
        exact this hc
      cases res with
      | error e =>
          simp only [processResources, hp] at h
          rcases hone h with h1 | h1
          · exact Or.inl h1
          · exact Or.inr ⟨d, List.mem_cons_self d rest, h1⟩
      | ok d1 =>
          simp only [processResources, hp] at h
          rcases ih (appendOut out (encodeDoc d1)) found1 k h with h1 | ⟨w, hw, hkw⟩
          · rcases hone h1 with h2 | h2
            · exact Or.inl h2
            · exact Or.inr ⟨d, List.mem_cons_self d rest, h2⟩
          · exact Or.inr ⟨w, List.mem_cons_of_mem d hw, hkw⟩

/-- A fresh capa run over a stream containing no document of kind `k` ends
with `k` absent from its discovery state. -/
theorem fresh_run_not_found (f : CAPAFlags) (docs : List Doc) (k : String)
    (h : ∀ d ∈ docs, getKind d ≠ k) :
    foundIn ((processResources f docs "" []).2) k = false := by
  rcases hc : ((processResources f docs "" []).2).contains k with _ | _
  · exact hc
  · rcases processResources_snd_inv f docs "" [] k hc with h1 | ⟨d, hd, hkd⟩
    · exact absurd h1 (by simp)
    · exact absurd hkd (h d hd)

/-- A capa run whose final discovery state the validator rejects fails; and
when the processing loop succeeded, the run's outcome is exactly the
validator's verdict on that state. -/
theorem runCAPA_outcome (f : CAPAFlags) (found0 : List String) (docs : List Doc)
    (hval : isErr (validation (mkHelper f (processResources f docs "" found0).2)) = true) :
    isErr ((runCAPA f found0 docs).1.1) = true ∧
    (isErr ((processResources f docs "" found0).1) = false →
      (runCAPA f found0 docs).1.1 =
        validation (mkHelper f (processResources f docs "" found0).2)) := by
  unfold runCAPA
  rcases hp : processResources f docs "" found0 with ⟨res, fd⟩
  cases res with
  | error e =>
      refine ⟨rfl, fun hok => ?_⟩
      exact absurd hok (by simp [isErr])
  | ok out =>
      simp only []
      have hval0 := hval
      rw [hp] at hval0
      have hval1 : isErr (validation (mkHelper f fd)) = true := hval0
      rcases hv : validation (mkHelper f fd) with e | u
      · exact ⟨rfl, fun _ => rfl⟩
      · rw [hv] at hval1
        exact absurd hval1 (by simp [isErr])

/-- C3 amended — every fresh capa run (one starting from the empty discovery
state a newly constructed command has) that requests an intent whose target
kind appears nowhere in the stream fails, and whenever the per-document
processing loop itself succeeded it is batch validation, judging the run's
final discovery state, that rejects. The violation for the CIDR and
control-plane-role intents names AWSManagedControlPlane unconditionally; the
missing-AWSManagedMachinePool violation is reported and names its kind when
no earlier check (the AWSManagedControlPlane checks, bound ordering) fires
first; the role-propagation violation for a missing Cluster names the
annotation-update intent but calls the target "ControlPlane" rather than
`Cluster`. -/
theorem cross_kind_gating_amended :
    (∀ (f : CAPAFlags) (docs : List Doc),
      f.vpcCidr ≠ "" ∨ f.managedControlplaneRole ≠ "" →
      (∀ d ∈ docs, getKind d ≠ awsManagedControlPlane) →
      isErr ((runCAPA f [] docs).1.1) = true ∧
      isErr (validation (mkHelper f (processResources f docs "" []).2)) = true ∧
      errMentions (validation (mkHelper f (processResources f docs "" []).2))
        awsManagedControlPlane = true ∧
      (isErr ((processResources f docs "" []).1) = false →
        (runCAPA f [] docs).1.1 =
          validation (mkHelper f (processResources f docs "" []).2))) ∧
    (∀ (f : CAPAFlags) (docs : List Doc),
      f.managedMachinepoolRole ≠ "" →
      (∀ d ∈ docs, getKind d ≠ awsManagedMachinePool) →
      isErr ((runCAPA f [] docs).1.1) = true ∧
      isErr (validation (mkHelper f (processResources f docs "" []).2)) = true ∧
      (isErr ((processResources f docs "" []).1) = false →
        (runCAPA f [] docs).1.1 =
          validation (mkHelper f (processResources f docs "" []).2))) ∧
    (∀ (f : CAPAFlags) (docs : List Doc),
      f.managedControlplaneRole ≠ "" →
      (∀ d ∈ docs, getKind d ≠ cluster) →
      isErr ((runCAPA f [] docs).1.1) = true ∧
      isErr (validation (mkHelper f (processResources f docs "" []).2)) = true ∧
      (isErr ((processResources f docs "" []).1) = false →
        (runCAPA f [] docs).1.1 =
          validation (mkHelper f (processResources f docs "" []).2))) ∧
    (∀ helper : validationHelper,
      foundIn helper.isFound awsManagedControlPlane = true →
      ¬helper.minCount > helper.maxCount →
      helper.managedMachinepoolRole ≠ "" →
      foundIn helper.isFound awsManagedMachinePool = false →
      validation helper =
        Except.error "failed to get AWSManagedMachinePool for role configuration") ∧
    (∀ helper : validationHelper,
      foundIn helper.isFound awsManagedControlPlane = true →
      ¬helper.minCount > helper.maxCount →
      helper.managedMachinepoolRole = "" ∨ foundIn helper.isFound awsManagedMachinePool = true →
      helper.managedControlplaneRole ≠ "" →
      foundIn helper.isFound cluster = false →
      validation helper = Except.error "failed to get ControlPlane to update annotations") := by
  refine ⟨?_, ?_, ?_, validationAMP_first_violation, validationCluster_first_violation⟩
  · intro f docs hor hnone
    have hfound : foundIn ((processResources f docs "" []).2) awsManagedControlPlane = false :=
      fresh_run_not_found f docs awsManagedControlPlane hnone
    have hv := validationACP_missing_errs (mkHelper f (processResources f docs "" []).2)
      hfound hor
    have hrun := runCAPA_outcome f [] docs hv.1
    exact ⟨hrun.1, hv.1, hv.2, hrun.2⟩
  · intro f docs hrole hnone
    have hfound : foundIn ((processResources f docs "" []).2) awsManagedMachinePool = false :=
      fresh_run_not_found f docs awsManagedMachinePool hnone
    have hv := validationAMP_missing_errs (mkHelper f (processResources f docs "" []).2)
      hrole hfound
    have hrun := runCAPA_outcome f [] docs hv
    exact ⟨hrun.1, hv, hrun.2⟩
  · intro f docs hrole hnone
    have hfound : foundIn ((processResources f docs "" []).2) cluster = false :=
      fresh_run_not_found f docs cluster hnone
    have hv := validationCluster_missing_errs (mkHelper f (processResources f docs "" []).2)
      hrole hfound
    have hrun := runCAPA_outcome f [] docs hv
    exact ⟨hrun.1, hv, hrun.2⟩

/-- C3 witness: fresh runs with concrete unmatched intents — CIDR over a
stream with only a MachinePool document, machine-pool role and control-plane
role over a stream with only an AWSManagedControlPlane document — all fail,
the CIDR violation naming the kind; first-reported violations at concrete
validator states as stated. -/
theorem cross_kind_gating_amended_witness :
    isErr ((runCAPA cidrFlags [] [mpDoc0]).1.1) = true ∧
    errMentions (validation (mkHelper cidrFlags (processResources cidrFlags [mpDoc0] "" []).2))
      awsManagedControlPlane = true ∧
    isErr ((runCAPA mpRoleFlags [] [acpDoc0]).1.1) = true ∧
    isErr ((runCAPA cpRoleFlags [] [acpDoc0]).1.1) = true ∧
    validation (mkHelper mpRoleFlags [awsManagedControlPlane]) =
      Except.error "failed to get AWSManagedMachinePool for role configuration" ∧
    validation (mkHelper cpRoleFlags [awsManagedControlPlane]) =
      Except.error "failed to get ControlPlane to update annotations" :=
  ⟨(cross_kind_gating_amended.1 cidrFlags [mpDoc0] (Or.inl (by decide)) (by
      intro d hd
      rw [List.mem_singleton] at hd
      subst hd
      decide)).1,
   (cross_kind_gating_amended.1 cidrFlags [mpDoc0] (Or.inl (by decide)) (by
      intro d hd
      rw [List.mem_singleton] at hd
      subst hd
      decide)).2.2.1,
   (cross_kind_gating_amended.2.1 mpRoleFlags [acpDoc0] (by decide) (by
      intro d hd
      rw [List.mem_singleton] at hd
      subst hd
      decide)).1,
   (cross_kind_gating_amended.2.2.1 cpRoleFlags [acpDoc0] (by decide) (by
      intro d hd
      rw [List.mem_singleton] at hd
      subst hd
      decide)).1,
   cross_kind_gating_amended.2.2.2.1 (mkHelper mpRoleFlags [awsManagedControlPlane])
     (by decide) (by decide) (by decide) (by decide),
   cross_kind_gating_amended.2.2.2.2 (mkHelper cpRoleFlags [awsManagedControlPlane])
     (by decide) (by decide) (Or.inl (by decide)) (by decide) (by decide)⟩
